import Mathlib

/-!
Verification of the hve-forge CLI core against its specification.

The embedding models, from `src/hve_forge/github_stats.py` and
`src/hve_forge/retrospective.py`:

* the JSON value fragment handled by the standard `json` library as used by
  `_format_tool_arguments` (`json.loads` / `json.dumps(..., indent=2)`),
  restricted to null, booleans, integers, strings, arrays and objects
  (floats are outside the modelled fragment, and the serializer is modelled
  without the ASCII-escaping option, which the claims do not observe);
* the helper functions `_truncate`, `_tool_label`, `_format_tool_arguments`;
* the event renderer produced by `_make_event_handler` as a pure transition
  function on a render state, emitting a trace of console effects;
* the two session drivers `_run_github_stats` and `_run_retrospective` as
  functions from a supplied event sequence to a run outcome (the external
  SDK client, session and terminal widget are represented by the trace).

Python `x or d` on an optional string is modelled by `pyOrStr`; `str | None`
fields are `Option String`; a value's `str()` form is carried as a payload
field where the code falls back to it.
-/

namespace HveForge

/-! ### JSON values (the fragment of the `json` library the code exercises) -/

/-- A JSON value: null, booleans, integers, strings, arrays, objects. -/
inductive Json where
  | null
  | bool (b : Bool)
  | num (i : Int)
  | str (s : String)
  | arr (elems : List Json)
  | obj (members : List (String × Json))


/-- The decimal digit character for `k < 10`. -/
def digitChar (k : Nat) : Char := Char.ofNat (48 + k)

/-- Decimal digits of `n`, most significant first; `fuel` bounds recursion
    (structural, so proofs and evaluation both unfold it). -/
def natDigitsAux : Nat → Nat → List Char
  | 0, _ => []
  | fuel + 1, n => if n < 10 then [digitChar n] else natDigitsAux fuel (n / 10) ++ [digitChar (n % 10)]

/-- Decimal digits of `n`, most significant first. -/
def natDigits (n : Nat) : List Char := natDigitsAux (n + 1) n

/-- Decimal form of an integer: optional minus sign, then digits. -/
def intChars (i : Int) : List Char :=
  if i < 0 then '-' :: natDigits i.natAbs else natDigits i.natAbs

/-- Lower-case hexadecimal digit character for `k < 16`. -/
def hexDigit (k : Nat) : Char :=
  if k < 10 then Char.ofNat (48 + k) else Char.ofNat (87 + k)

/-- JSON escaping of one character, as the serializer emits it: the two-character
    shortcuts for the characters that have them, `\u00XX` for the remaining
    control characters, the character itself otherwise. -/
def escapeChar (c : Char) : List Char :=
  if c = '"' then ['\\', '"']
  else if c = '\\' then ['\\', '\\']
  else if c = '\n' then ['\\', 'n']
  else if c = '\t' then ['\\', 't']
  else if c = '\r' then ['\\', 'r']
  else if c.toNat = 8 then ['\\', 'b']
  else if c.toNat = 12 then ['\\', 'f']
  else if c.toNat < 32 then ['\\', 'u', '0', '0', hexDigit (c.toNat / 16), hexDigit (c.toNat % 16)]
  else [c]

/-- A serialized JSON string: quote, escaped characters, quote. -/
def renderStr (s : String) : List Char :=
  '"' :: (s.data.flatMap escapeChar ++ ['"'])

/-- The newline-plus-indentation separator `json.dumps(..., indent=2)` places
    before an element at nesting level `ind`. -/
def nlPad (ind : Nat) : List Char := '\n' :: List.replicate (2 * ind) ' '

mutual

/-- Serialize a value at nesting level `ind`, in the exact layout of
    `json.dumps(value, indent=2)` for the modelled fragment. -/
def dumpsL : Json → Nat → List Char
  | .null, _ => ['n', 'u', 'l', 'l']
  | .bool true, _ => ['t', 'r', 'u', 'e']
  | .bool false, _ => ['f', 'a', 'l', 's', 'e']
  | .num i, _ => intChars i
  | .str s, _ => renderStr s
  | .arr [], _ => ['[', ']']
  | .arr (e :: es), ind =>
      '[' :: (nlPad (ind + 1) ++ (dumpsL e (ind + 1) ++ (dumpsElems es (ind + 1) ++ (nlPad ind ++ [']']))))
  | .obj [], _ => ['{', '}']
  | .obj ((k, v) :: ms), ind =>
      '{' :: (nlPad (ind + 1) ++ (renderStr k ++ (':' :: ' ' :: dumpsL v (ind + 1) ++ (dumpsMembers ms (ind + 1) ++ (nlPad ind ++ ['}'])))))

/-- Comma-separated continuation of an array body. -/
def dumpsElems : List Json → Nat → List Char
  | [], _ => []
  | e :: es, ind => ',' :: (nlPad ind ++ (dumpsL e ind ++ dumpsElems es ind))

/-- Comma-separated continuation of an object body. -/
def dumpsMembers : List (String × Json) → Nat → List Char
  | [], _ => []
  | (k, v) :: ms, ind => ',' :: (nlPad ind ++ (renderStr k ++ (':' :: ' ' :: dumpsL v ind ++ dumpsMembers ms ind)))

end

/-- `json.dumps(value, indent=2)` on the modelled fragment. -/
def dumps (v : Json) : String := ⟨dumpsL v 0⟩

/-- JSON whitespace. -/
def isWsCh (c : Char) : Bool := c = ' ' || c = '\n' || c = '\t' || c = '\r'

/-- ASCII decimal digit. -/
def isDigitCh (c : Char) : Bool := '0' ≤ c && c ≤ '9'

/-- Drop leading JSON whitespace. -/
def skipWs : List Char → List Char
  | [] => []
  | c :: cs => if isWsCh c then skipWs cs else c :: cs

/-- Split off the longest leading run of decimal digits. -/
def scanDigits : List Char → List Char × List Char
  | [] => ([], [])
  | c :: cs =>
      if isDigitCh c then
        let (ds, r) := scanDigits cs
        (c :: ds, r)
      else ([], c :: cs)

/-- The number a digit run denotes. -/
def digitsToNat (ds : List Char) : Nat :=
  ds.foldl (fun acc c => acc * 10 + (c.toNat - 48)) 0

/-- Parse an integer literal (optional minus sign, one or more digits). -/
def parseNum (cs : List Char) : Option (Int × List Char) :=
  match cs with
  | '-' :: r =>
      let (ds, r1) := scanDigits r
      if ds.isEmpty then none else some (-(digitsToNat ds : Int), r1)
  | _ =>
      let (ds, r1) := scanDigits cs
      if ds.isEmpty then none else some ((digitsToNat ds : Int), r1)

/-- Value of one hexadecimal digit character. -/
def hexVal (c : Char) : Option Nat :=
  if '0' ≤ c && c ≤ '9' then some (c.toNat - 48)
  else if 'a' ≤ c && c ≤ 'f' then some (c.toNat - 87)
  else if 'A' ≤ c && c ≤ 'F' then some (c.toNat - 55)
  else none

/-- Value of a four-digit hexadecimal escape. -/
def parseHex4 (a b c d : Char) : Option Nat := do
  let va ← hexVal a
  let vb ← hexVal b
  let vc ← hexVal c
  let vd ← hexVal d
  return ((va * 16 + vb) * 16 + vc) * 16 + vd

/-- Decode one short escape character (the self-escaping characters pass
    through; the named ones map to their control character). -/
def escDecode (e : Char) : Option Char :=
  if e = '"' ∨ e = '\\' ∨ e = '/' then some e
  else if e = 'n' then some '\n'
  else if e = 't' then some '\t'
  else if e = 'r' then some '\r'
  else if e = 'b' then some (Char.ofNat 8)
  else if e = 'f' then some (Char.ofNat 12)
  else none

/-- Parse the body of a string literal after the opening quote, accumulating
    decoded characters in reverse. -/
def parseStrBody (acc : List Char) : List Char → Option (String × List Char)
  | '"' :: r => some (⟨acc.reverse⟩, r)
  | '\\' :: 'u' :: a :: b :: c :: d :: r =>
      match parseHex4 a b c d with
      | some n => parseStrBody (Char.ofNat n :: acc) r
      | none => none
  | '\\' :: e :: r =>
      match escDecode e with
      | some ch => parseStrBody (ch :: acc) r
      | none => none
  | c :: r => parseStrBody (c :: acc) r
  | [] => none

/-- Parse a string literal body (after the opening quote). -/
def parseStr (cs : List Char) : Option (String × List Char) := parseStrBody [] cs

mutual

/-- Parse one JSON value; `fuel` bounds recursion (any fuel beyond the input
    length suffices). -/
def parseVal : Nat → List Char → Option (Json × List Char)
  | 0, _ => none
  | fuel + 1, cs =>
      match skipWs cs with
      | 'n' :: 'u' :: 'l' :: 'l' :: r => some (.null, r)
      | 't' :: 'r' :: 'u' :: 'e' :: r => some (.bool true, r)
      | 'f' :: 'a' :: 'l' :: 's' :: 'e' :: r => some (.bool false, r)
      | '"' :: r =>
          match parseStr r with
          | some (s, r1) => some (.str s, r1)
          | none => none
      | '[' :: r =>
          match skipWs r with
          | [] => none
          | c :: r1 =>
              if c = ']' then some (.arr [], r1)
              else
                match parseElems fuel (c :: r1) with
                | some (es, r2) => some (.arr es, r2)
                | none => none
      | '{' :: r =>
          match skipWs r with
          | [] => none
          | c :: r1 =>
              if c = '}' then some (.obj [], r1)
              else
                match parseMembers fuel (c :: r1) with
                | some (ms, r2) => some (.obj ms, r2)
                | none => none
      | c :: r =>
          if c = '-' || isDigitCh c then
            match parseNum (c :: r) with
            | some (i, r1) => some (.num i, r1)
            | none => none
          else none
      | [] => none

/-- Parse one or more comma-separated array elements up to the closing bracket. -/
def parseElems : Nat → List Char → Option (List Json × List Char)
  | 0, _ => none
  | fuel + 1, cs =>
      match parseVal fuel cs with
      | none => none
      | some (v, r) =>
          match skipWs r with
          | ',' :: r1 =>
              match parseElems fuel (skipWs r1) with
              | some (vs, r2) => some (v :: vs, r2)
              | none => none
          | ']' :: r1 => some ([v], r1)
          | _ => none

/-- Parse one or more comma-separated object members up to the closing brace. -/
def parseMembers : Nat → List Char → Option (List (String × Json) × List Char)
  | 0, _ => none
  | fuel + 1, cs =>
      match skipWs cs with
      | '"' :: r =>
          match parseStr r with
          | none => none
          | some (k, r1) =>
              match skipWs r1 with
              | ':' :: r2 =>
                  match parseVal fuel (skipWs r2) with
                  | none => none
                  | some (v, r3) =>
                      match skipWs r3 with
                      | ',' :: r4 =>
                          match parseMembers fuel (skipWs r4) with
                          | some (ms, r5) => some ((k, v) :: ms, r5)
                          | none => none
                      | '}' :: r4 => some ([(k, v)], r4)
                      | _ => none
              | _ => none
      | _ => none

end

/-- `json.loads` on the modelled fragment: a whole document, allowing
    surrounding whitespace, rejecting trailing input. -/
def loads (s : String) : Option Json :=
  match parseVal (s.data.length + 1) s.data with
  | some (v, r) => if (skipWs r).isEmpty then some v else none
  | none => none

/-! ### `_format_tool_arguments` and `_truncate` (`github_stats.py`) -/

/-- The Python values `_format_tool_arguments` dispatches on: `None`, a string,
    a mapping (with JSON-serializable entries, as the SDK supplies), or any
    other object carried by its `str()` form. -/
inductive PyValue where
  | none
  | str (s : String)
  | dict (m : List (String × Json))
  | other (strForm : String)


/-- `_format_tool_arguments`: format tool call arguments for display. -/
def format_tool_arguments : PyValue → String
  | .none => ""
  | .str s =>
      match loads s with
      | some parsed => dumps parsed
      | Option.none => s
  | .dict m => dumps (Json.obj m)
  | .other r => r

/-- `_truncate`: truncate text to a maximum length, appending an ellipsis if
    needed (the call sites pass 500 and 200). -/
def truncate (text : String) (max_length : Nat) : String :=
  if text.length ≤ max_length then text else text.take max_length ++ "…"

/-! ### Session events (`copilot.SessionEvent` as the renderer reads it) -/

/-- The `event.type.value` strings the renderer dispatches on; `unknown`
    covers every other kind (the dispatch falls through and does nothing). -/
inductive EventType where
  | toolExecutionStart
  | toolExecutionComplete
  | toolExecutionProgress
  | toolExecutionPartResult
  | assistantMessageDelta
  | assistantMessage
  | assistantTurnStart
  | assistantTurnEnd
  | sessionStart
  | sessionError
  | sessionIdle
  | unknown


/-- A tool result as read by the renderer (`event.data.result.content`). -/
structure ToolResult where
  content : String


/-- The event payload fields the renderers read. Optional fields are `Option`;
    `str_form` carries the payload's `str()` form, which the error branches
    fall back to. `part_output` models the `partial_output` field. -/
structure EventData where
  tool_name : Option String
  mcp_server_name : Option String
  mcp_tool_name : Option String
  arguments : PyValue
  result : Option ToolResult
  progress_message : Option String
  part_output : Option String
  delta_content : Option String
  content : Option String
  message : Option String
  str_form : String


/-- A session event: a kind tag plus its payload. -/
structure SessionEvent where
  type : EventType
  data : EventData


/-- An all-absent payload with the given `str()` form. -/
def emptyData (strForm : String) : EventData :=
  ⟨none, none, none, .none, none, none, none, none, none, none, strForm⟩

/-- Python `x or d` for an optional string `x`: the fallback replaces both
    `None` and the empty string. -/
def pyOrStr (o : Option String) (d : String) : String :=
  match o with
  | some s => if s = "" then d else s
  | none => d

/-- `_tool_label`: derive a human-readable label for a tool event. -/
def tool_label (event : SessionEvent) : String :=
  let tool_name := pyOrStr event.data.tool_name "unknown"
  let mcp_server := pyOrStr event.data.mcp_server_name ""
  let mcp_tool := pyOrStr event.data.mcp_tool_name ""
  if mcp_server ≠ "" ∧ mcp_tool ≠ "" then mcp_server ++ "/" ++ mcp_tool
  else if mcp_tool ≠ "" then mcp_tool
  else tool_name

/-! ### The event renderer (`_make_event_handler` in `github_stats.py`) -/

/-- One console effect of the renderer: a titled or untitled panel, a printed
    line, a blank line, rendered markdown prose, a spinner update on the live
    widget, or stopping the live widget. The strings carry the exact text
    (with its display markup) the code passes to the console. -/
inductive Output where
  | panel (title : Option String) (body : String) (borderStyle : String)
  | line (s : String)
  | blank
  | markdown (s : String)
  | spinner (text : String)
  | liveStop


/-- The mutable state shared into the renderer callback: the done latch, the
    collected error messages, and the assistant message buffer. -/
structure RenderState where
  done : Bool
  error_message : List String
  message_buffer : List String


/-- The state the driver creates before registering the callback. -/
def initState : RenderState := ⟨false, [], []⟩

/-- The renderer callback `on_event`: a pure transition on `RenderState`
    emitting console effects, parametrized like `_make_event_handler` by the
    verbose flag and by whether a live widget was supplied. -/
def on_event (verbose hasLive : Bool) (st : RenderState) (event : SessionEvent) :
    RenderState × List Output :=
  match event.type with
  | .toolExecutionStart =>
      let label := tool_label event
      if verbose then
        let args_text := format_tool_arguments event.data.arguments
        let body := if args_text ≠ "" then args_text else "(no arguments)"
        (st, [.panel (some ("[bold cyan]⚙  Calling tool:[/bold cyan] [yellow]" ++ label ++ "[/yellow]")) body "cyan"])
      else if hasLive then
        (st, [.spinner ("  Calling [yellow]" ++ label ++ "[/yellow]…")])
      else (st, [])
  | .toolExecutionComplete =>
      let label := tool_label event
      if verbose then
        let result_text :=
          match event.data.result with
          | some r => truncate r.content 500
          | none => ""
        let body := if result_text ≠ "" then result_text else "(no output)"
        (st, [.panel (some ("[bold green]✓  Tool complete:[/bold green] [yellow]" ++ label ++ "[/yellow]")) body "green"])
      else if hasLive then
        (st, [.spinner ("  [green]✓[/green] " ++ label)])
      else (st, [])
  | .toolExecutionProgress =>
      let progress := pyOrStr event.data.progress_message ""
      if progress ≠ "" ∧ verbose then
        (st, [.line ("  [dim]⏳ " ++ progress ++ "[/dim]")])
      else (st, [])
  | .toolExecutionPartResult =>
      let partText := pyOrStr event.data.part_output ""
      if partText ≠ "" ∧ verbose then
        (st, [.line ("  [dim]… partial: " ++ truncate partText 200 ++ "[/dim]")])
      else (st, [])
  | .assistantMessageDelta =>
      let delta := pyOrStr event.data.delta_content ""
      ({ st with message_buffer := st.message_buffer ++ [delta] }, [])
  | .assistantMessage =>
      let full_text := String.join st.message_buffer
      let st1 := { st with message_buffer := [] }
      if full_text.trim ≠ "" then
        (st1, (if !verbose && hasLive then [.liveStop] else []) ++ [.blank, .markdown full_text, .blank])
      else (st1, [])
  | .assistantTurnStart =>
      if verbose then (st, [.panel none "[bold]Assistant is thinking…[/bold]" "blue"])
      else if hasLive then (st, [.spinner "  Thinking…"])
      else (st, [])
  | .assistantTurnEnd =>
      if verbose then (st, [.panel none "[bold]Turn complete[/bold]" "blue"])
      else (st, [])
  | .sessionStart =>
      if verbose then (st, [.line "[bold green]Session started[/bold green]"])
      else (st, [])
  | .sessionError =>
      let error_content := pyOrStr event.data.content (pyOrStr event.data.message event.data.str_form)
      ({ st with error_message := st.error_message ++ [error_content], done := true },
       [.line ("[bold red]Session error:[/bold red] " ++ error_content)])
  | .sessionIdle =>
      ({ st with done := true },
       if !verbose && hasLive then [.liveStop] else [])
  | .unknown => (st, [])

/-- Deliver a sequence of events to the renderer in order, collecting the
    emitted console effects. -/
def processEvents (verbose hasLive : Bool) (st : RenderState) :
    List SessionEvent → RenderState × List Output
  | [] => (st, [])
  | e :: rest =>
      let p := on_event verbose hasLive st e
      let q := processEvents verbose hasLive p.1 rest
      (q.1, p.2 ++ q.2)

/-- The error text the stats renderer captures from a `session.error` payload:
    content field, else message field, else the payload's `str()` form
    (each skipped when absent or empty, as Python `or` does). -/
def errText (d : EventData) : String :=
  pyOrStr d.content (pyOrStr d.message d.str_form)

/-- The error texts of the `session.error` events of a sequence, in order. -/
def errorTexts : List SessionEvent → List String
  | [] => []
  | e :: rest =>
      match e.type with
      | .sessionError => errText e.data :: errorTexts rest
      | _ => errorTexts rest

/-- An `assistant.message_delta` event carrying the fragment `s`. -/
def deltaEv (s : String) : SessionEvent :=
  ⟨.assistantMessageDelta, { emptyData "" with delta_content := some s }⟩

/-! ### Session configuration and the drivers -/

/-- A local MCP tool-server declaration: launch command, arguments,
    environment overrides. -/
structure MCPServerCfg where
  command : String
  args : List String
  env : List (String × String)


/-- The session configuration handed to `client.create_session`. -/
structure SessionCfg where
  model : String
  system_message : String
  mcp_servers : List (String × MCPServerCfg)
  streaming : Bool


/-- The configuration structure `CopilotClient` is constructed with when a
    token is supplied. -/
structure ClientCfg where
  github_token : String


/-- The observable outcome of one driver run: the constructor argument, the
    session configuration, the console trace, the final render state, the
    teardown facts, and the reported failure (if any). -/
structure RunResult where
  clientConfig : Option ClientCfg
  sessionConfig : SessionCfg
  promptSent : String
  outputs : List Output
  finalState : RenderState
  sessionDestroyed : Bool
  clientStopped : Bool
  exitCode : Option Nat
  reportedError : Option String


namespace GithubStats

/-- The fixed system message of the stats session. -/
def GITHUB_STATS_SYSTEM_MESSAGE : String :=
  "You are a GitHub statistics analyst. "
  ++ "Your role is to analyze the current repository using the available GitHub MCP tools "
  ++ "and generate a comprehensive statistics report. "
  ++ "Focus on: repository activity metrics (stars, forks, watchers), contributor statistics, "
  ++ "commit frequency, pull request metrics, issue metrics, and code evolution trends. "
  ++ "Use the GitHub MCP server to pull real data about the repository. "
  ++ "Present findings in a structured, easy-to-read format with clear sections and data visualizations "
  ++ "where appropriate."

/-- `_build_mcp_servers` (stats): one GitHub tool server whose environment
    takes the access token from the `GITHUB_TOKEN` environment variable,
    empty when absent. `osEnv` is the process environment. -/
def build_mcp_servers (osEnv : String → Option String) : List (String × MCPServerCfg) :=
  [("github",
    { command := "npx"
      args := ["-y", "@modelcontextprotocol/server-github"]
      env := [("GITHUB_PERSONAL_ACCESS_TOKEN", (osEnv "GITHUB_TOKEN").getD "")] })]

/-- `_build_session_config` (stats). -/
def build_session_config (osEnv : String → Option String) (model : String) : SessionCfg :=
  { model := model
    system_message := GITHUB_STATS_SYSTEM_MESSAGE
    mcp_servers := build_mcp_servers osEnv
    streaming := true }

/-- The `CopilotClient` constructor argument:
    `{"github_token": github_token} if github_token else None`. -/
def clientArg (github_token : Option String) : Option ClientCfg :=
  match github_token with
  | some t => if t = "" then none else some ⟨t⟩
  | none => none

/-- `_run_github_stats`, as a function of the event sequence the session
    delivers. `none` models a run whose wait is never signalled; a completed
    run records teardown (session destroy, then guaranteed client stop) and
    the failure exit when an error was captured. -/
def run_github_stats (osEnv : String → Option String) (prompt model : String)
    (github_token : Option String) (verbose : Bool) (events : List SessionEvent) :
    Option RunResult :=
  let hasLive := !verbose
  let p := processEvents verbose hasLive initState events
  if p.1.done then
    some
      { clientConfig := clientArg github_token
        sessionConfig := build_session_config osEnv model
        promptSent := prompt
        outputs := p.2 ++
          (match p.1.error_message with
           | [] => []
           | e :: _ => [.line ("\n[bold red]Error during GitHub stats analysis:[/bold red] " ++ e)])
        finalState := p.1
        sessionDestroyed := true
        clientStopped := true
        exitCode := match p.1.error_message with | [] => none | _ :: _ => some 1
        reportedError := p.1.error_message.head? }
  else none

end GithubStats

namespace Retrospective

/-- The fixed system message of the retrospective session. -/
def RETROSPECTIVE_SYSTEM_MESSAGE : String :=
  "You are a retrospective facilitator for a software development team. "
  ++ "Your role is to analyze the current repository using the available MCP tools "
  ++ "(GitHub API, Context7, WorkIQ) and generate a comprehensive team retrospective. "
  ++ "Focus on: recent activity (commits, PRs, issues), what went well, what could be improved, "
  ++ "action items, and team collaboration patterns. "
  ++ "Use the GitHub MCP server to pull real data about the repository. "
  ++ "Present findings in a structured retrospective format."

/-- `_build_mcp_servers` (retrospective): the GitHub tool server plus the
    Context7 documentation server (no environment overrides for the latter). -/
def build_mcp_servers (osEnv : String → Option String) : List (String × MCPServerCfg) :=
  [("github",
    { command := "npx"
      args := ["-y", "@modelcontextprotocol/server-github"]
      env := [("GITHUB_PERSONAL_ACCESS_TOKEN", (osEnv "GITHUB_TOKEN").getD "")] }),
   ("context7",
    { command := "npx"
      args := ["-y", "@upstash/context7-mcp@latest"]
      env := [] })]

/-- `_build_session_config` (retrospective). -/
def build_session_config (osEnv : String → Option String) (model : String) : SessionCfg :=
  { model := model
    system_message := RETROSPECTIVE_SYSTEM_MESSAGE
    mcp_servers := build_mcp_servers osEnv
    streaming := true }

/-- The `CopilotClient` constructor argument (same expression as the stats
    driver). -/
def clientArg (github_token : Option String) : Option ClientCfg :=
  match github_token with
  | some t => if t = "" then none else some ⟨t⟩
  | none => none

/-- The retrospective renderer state: done latch and collected errors. -/
structure RetroState where
  done : Bool
  error_message : List String


/-- A stdout/stderr effect of the retrospective renderer. -/
inductive RetroOutput where
  | stdout (s : String)
  | stderr (s : String)


/-- The retrospective `on_event` callback: deltas stream to stdout, a message
    ends the line, an error is captured (content field, else the payload's
    `str()` form) and sets done, idle sets done. -/
def on_event (st : RetroState) (event : SessionEvent) : RetroState × List RetroOutput :=
  match event.type with
  | .assistantMessageDelta => (st, [.stdout (pyOrStr event.data.delta_content "")])
  | .assistantMessage => (st, [.stdout "\n"])
  | .sessionError =>
      let error_content :=
        match event.data.content with
        | some c => c
        | none => event.data.str_form
      ({ done := true, error_message := st.error_message ++ [error_content] }, [])
  | .sessionIdle => ({ st with done := true }, [])
  | _ => (st, [])

/-- Deliver a sequence of events to the retrospective renderer in order. -/
def processEvents (st : RetroState) : List SessionEvent → RetroState × List RetroOutput
  | [] => (st, [])
  | e :: rest =>
      let p := on_event st e
      let q := processEvents p.1 rest
      (q.1, p.2 ++ q.2)

/-- The outcome of one retrospective run. -/
structure RetroResult where
  clientConfig : Option ClientCfg
  sessionConfig : SessionCfg
  promptSent : String
  outputs : List RetroOutput
  finalState : RetroState
  sessionDestroyed : Bool
  clientStopped : Bool
  exitCode : Option Nat
  reportedError : Option String


/-- `_run_retrospective`, as a function of the delivered event sequence. -/
def run_retrospective (osEnv : String → Option String) (prompt model : String)
    (github_token : Option String) (events : List SessionEvent) :
    Option RetroResult :=
  let p := processEvents ⟨false, []⟩ events
  if p.1.done then
    some
      { clientConfig := clientArg github_token
        sessionConfig := build_session_config osEnv model
        promptSent := prompt
        outputs := p.2 ++
          (match p.1.error_message with
           | [] => []
           | e :: _ => [.stderr ("\nError during retrospective: " ++ e)])
        finalState := p.1
        sessionDestroyed := true
        clientStopped := true
        exitCode := match p.1.error_message with | [] => none | _ :: _ => some 1
        reportedError := p.1.error_message.head? }
  else none

end Retrospective

/-! ## Theorems

Helper lemmas come first; each claim of the specification is then settled by
one theorem (with a witness where the theorem carries hypotheses, and a
counterexample where the claim as stated fails on the code).
-/

/-- The renderer's successor state has the done latch set whenever the
    incoming state had it set: no branch clears `done`. -/
theorem on_event_done_mono (v l : Bool) (st : RenderState) (e : SessionEvent)
    (h : st.done = true) : ((on_event v l st e).1).done = true := by
  rcases e with ⟨ty, d⟩
  cases ty <;> simp only [on_event] <;> (repeat' split) <;> simp_all

/-- One renderer step appends exactly the error texts of the event (one for a
    `session.error` event, none otherwise) to the collected error list. -/
theorem on_event_error_message (v l : Bool) (st : RenderState) (e : SessionEvent) :
    ((on_event v l st e).1).error_message = st.error_message ++ errorTexts [e] := by
  rcases e with ⟨ty, d⟩
  cases ty <;> simp only [on_event, errorTexts, errText] <;> (repeat' split) <;> simp

/-- Over a whole event sequence the collected error list is the incoming list
    followed by the error texts of the sequence, in order. -/
theorem processEvents_error_message (v l : Bool) (st : RenderState)
    (evs : List SessionEvent) :
    ((processEvents v l st evs).1).error_message = st.error_message ++ errorTexts evs := by
  induction evs generalizing st with
  | nil => simp [processEvents, errorTexts]
  | cons e rest ih =>
      simp only [processEvents]
      rw [ih, on_event_error_message]
      rcases e with ⟨ty, d⟩
      cases ty <;> simp [errorTexts]

/-- A `session.error` event sets the done latch in the very step that handles
    it. -/
theorem on_event_error_sets_done (v l : Bool) (st : RenderState) (d : EventData) :
    ((on_event v l st ⟨.sessionError, d⟩).1).done = true := rfl

/-- Delta events only append to the message buffer: a run of
    `assistant.message_delta` events extends the buffer by exactly the
    fragments, in arrival order, and emits no output. -/
theorem processEvents_deltas (v l : Bool) (frags : List String) (st : RenderState) :
    processEvents v l st (frags.map deltaEv)
      = ({ st with message_buffer := st.message_buffer ++ frags }, []) := by
  induction frags generalizing st with
  | nil => simp [processEvents]
  | cons f rest ih =>
      have hp : pyOrStr (some f) "" = f := by
        simp only [pyOrStr]
        split <;> simp_all
      simp only [List.map_cons, processEvents, on_event, deltaEv, emptyData, hp]
      rw [ih]
      simp

/-- C7: `_truncate` is the identity on strings of length at most the limit
    (no ellipsis appended), appends exactly one trailing ellipsis marker when
    the string is longer, and is idempotent at a fixed limit. -/
theorem C7_truncate_spec (s : String) (n : Nat) :
    (s.length ≤ n → truncate s n = s) ∧
    (n < s.length → truncate s n = s.take n ++ "…") ∧
    truncate (truncate s n) n = truncate s n := by
  refine ⟨fun h => by simp [truncate, h], fun h => by simp [truncate, Nat.not_le.mpr h], ?_⟩
  by_cases h : s.length ≤ n
  · simp [truncate, h]
  · have htk : (s.take n).length = n := by
      show (s.take n).data.length = n
      rw [String.data_take, List.length_take]
      have : s.data.length = s.length := rfl
      omega
    have hlen : (s.take n ++ "…").length = n + 1 := by
      rw [String.length_append, htk]
      rfl
    have hagain : ¬ (s.take n ++ "…").length ≤ n := by omega
    simp only [truncate, if_neg h, if_neg hagain]
    have hcut : (s.take n ++ "…").take n = s.take n := by
      apply String.ext
      rw [String.data_take, String.data_append]
      exact List.take_left' htk
    rw [hcut]

/-- C7 witness: the three properties at concrete inputs. -/
theorem C7_witness :
    truncate "ab" 2 = "ab" ∧ truncate "abcd" 2 = "ab…" ∧
    truncate (truncate "abcd" 2) 2 = truncate "abcd" 2 := by
  refine ⟨(C7_truncate_spec "ab" 2).1 (by decide), ?_, (C7_truncate_spec "abcd" 2).2.2⟩
  rw [(C7_truncate_spec "abcd" 2).2.1 (by decide)]
  rfl

/-- C9: a tool event whose generic tool name, MCP server name and MCP tool
    name are each absent or empty gets the literal label `unknown`. -/
theorem C9_unknown_label (ty : EventType) (d : EventData)
    (h1 : d.tool_name = none ∨ d.tool_name = some "")
    (h2 : d.mcp_server_name = none ∨ d.mcp_server_name = some "")
    (h3 : d.mcp_tool_name = none ∨ d.mcp_tool_name = some "") :
    tool_label ⟨ty, d⟩ = "unknown" := by
  rcases h1 with h1 | h1 <;> rcases h2 with h2 | h2 <;> rcases h3 with h3 | h3 <;>
    simp [tool_label, pyOrStr, h1, h2, h3]

/-- C9 witness: the all-absent payload labels as `unknown`. -/
theorem C9_witness : tool_label ⟨.toolExecutionStart, emptyData "x"⟩ = "unknown" :=
  C9_unknown_label .toolExecutionStart (emptyData "x") (Or.inl rfl) (Or.inl rfl) (Or.inl rfl)

/-- C6 counterexample: with empty MCP server name, empty MCP tool name and an
    empty generic tool name, the label is the literal `unknown`, not the
    generic tool-name field (which is empty), so the claim's final clause
    fails as stated. -/
theorem C6_counterexample :
    tool_label ⟨.toolExecutionStart,
        ⟨some "", some "", some "", .none, none, none, none, none, none, none, "d"⟩⟩
      = "unknown" ∧ ("unknown" : String) ≠ "" :=
  ⟨rfl, by decide⟩

/-- C6 (amended): the label is `server/tool` when both MCP names are
    non-empty (after Python `or`-defaulting), else the MCP tool name when that
    is non-empty, else the generic tool-name field when that is non-empty and
    the literal `unknown` otherwise; both display modes of the renderer use
    this same derivation on tool events. -/
theorem C6_label_derivation (ty : EventType) (d : EventData) (l : Bool) (st : RenderState) :
    (pyOrStr d.mcp_server_name "" ≠ "" → pyOrStr d.mcp_tool_name "" ≠ "" →
      tool_label ⟨ty, d⟩ = pyOrStr d.mcp_server_name "" ++ "/" ++ pyOrStr d.mcp_tool_name "") ∧
    (pyOrStr d.mcp_server_name "" = "" → pyOrStr d.mcp_tool_name "" ≠ "" →
      tool_label ⟨ty, d⟩ = pyOrStr d.mcp_tool_name "") ∧
    (pyOrStr d.mcp_tool_name "" = "" →
      tool_label ⟨ty, d⟩ = pyOrStr d.tool_name "unknown") ∧
    (on_event true l st ⟨.toolExecutionStart, d⟩
      = (st, [.panel (some ("[bold cyan]⚙  Calling tool:[/bold cyan] [yellow]"
            ++ tool_label ⟨.toolExecutionStart, d⟩ ++ "[/yellow]"))
          (if format_tool_arguments d.arguments ≠ "" then format_tool_arguments d.arguments
           else "(no arguments)") "cyan"])) ∧
    (on_event false true st ⟨.toolExecutionStart, d⟩
      = (st, [.spinner ("  Calling [yellow]" ++ tool_label ⟨.toolExecutionStart, d⟩
          ++ "[/yellow]…")])) := by
  refine ⟨fun hs ht => ?_, fun hs ht => ?_, fun ht => ?_, rfl, rfl⟩
  · simp [tool_label, hs, ht]
  · simp [tool_label, hs, ht]
  · simp [tool_label, ht]

/-- C6 witness: the amended derivation at concrete payloads. -/
theorem C6_witness :
    tool_label ⟨.toolExecutionStart,
        ⟨some "generic", some "github", some "list_repos", .none, none, none, none, none, none, none, "d"⟩⟩
      = "github/list_repos" ∧
    tool_label ⟨.toolExecutionStart,
        ⟨some "generic", some "", some "search", .none, none, none, none, none, none, none, "d"⟩⟩
      = "search" ∧
    tool_label ⟨.toolExecutionStart,
        ⟨some "generic", some "", some "", .none, none, none, none, none, none, none, "d"⟩⟩
      = "generic" := by
  refine ⟨?_, ?_, ?_⟩
  · have h := (C6_label_derivation .toolExecutionStart
      ⟨some "generic", some "github", some "list_repos", .none, none, none, none, none, none, none, "d"⟩
      true initState).1 (by decide) (by decide)
    rw [h]
    rfl
  · have h := (C6_label_derivation .toolExecutionStart
      ⟨some "generic", some "", some "search", .none, none, none, none, none, none, none, "d"⟩
      true initState).2.1 (by decide) (by decide)
    rw [h]
    rfl
  · have h := (C6_label_derivation .toolExecutionStart
      ⟨some "generic", some "", some "", .none, none, none, none, none, none, none, "d"⟩
      true initState).2.2.1 (by decide)
    rw [h]
    rfl

/-- C10: in both drivers the external client is constructed with a
    token-bearing configuration exactly when the supplied token is non-None
    and non-empty; an empty-string token counts as absent (no configuration),
    and a completed run records exactly that constructor argument. -/
theorem C10_client_construction :
    (∀ tok : Option String,
      (GithubStats.clientArg tok).isSome = true ↔ ∃ s, tok = some s ∧ s ≠ "") ∧
    GithubStats.clientArg none = none ∧
    GithubStats.clientArg (some "") = none ∧
    (∀ s : String, s ≠ "" → GithubStats.clientArg (some s) = some ⟨s⟩) ∧
    Retrospective.clientArg none = none ∧
    Retrospective.clientArg (some "") = none ∧
    (∀ s : String, s ≠ "" → Retrospective.clientArg (some s) = some ⟨s⟩) ∧
    (∀ osEnv p m tok v evs r, GithubStats.run_github_stats osEnv p m tok v evs = some r →
      r.clientConfig = GithubStats.clientArg tok) ∧
    (∀ osEnv p m tok evs r, Retrospective.run_retrospective osEnv p m tok evs = some r →
      r.clientConfig = Retrospective.clientArg tok) := by
  refine ⟨?_, rfl, rfl, ?_, rfl, rfl, ?_, ?_, ?_⟩
  · intro tok
    rcases tok with _ | s
    · simp [GithubStats.clientArg]
    · by_cases hs : s = "" <;> simp [GithubStats.clientArg, hs]
  · intro s hs
    simp [GithubStats.clientArg, hs]
  · intro s hs
    simp [Retrospective.clientArg, hs]
  · intro osEnv p m tok v evs r h
    unfold GithubStats.run_github_stats at h
    simp only [] at h
    split at h
    · simp only [Option.some.injEq] at h
      subst h
      rfl
    · exact absurd h (by simp)
  · intro osEnv p m tok evs r h
    unfold Retrospective.run_retrospective at h
    simp only [] at h
    split at h
    · simp only [Option.some.injEq] at h
      subst h
      rfl
    · exact absurd h (by simp)

/-- C10 witness: a non-empty token yields a token-bearing configuration in
    both drivers. -/
theorem C10_witness :
    GithubStats.clientArg (some "T") = some ⟨"T"⟩ ∧
    Retrospective.clientArg (some "T") = some ⟨"T"⟩ := by
  obtain ⟨-, -, -, h4, -, -, h7, -, -⟩ := C10_client_construction
  exact ⟨h4 "T" (by decide), h7 "T" (by decide)⟩

/-- C1 counterexample: invoking the stats driver with token `"T"` while the
    `GITHUB_TOKEN` environment variable is unset constructs the client with
    `"T"`, but the GitHub tool-server's environment maps the access-token key
    to the empty string read from the environment, not to `"T"`. -/
theorem C1_counterexample :
    (GithubStats.run_github_stats (fun _ => none) "p" "gpt-4o" (some "T") true
        [⟨.sessionIdle, emptyData "e"⟩]).map
        (fun r => (r.clientConfig, r.sessionConfig.mcp_servers))
      = some (some ⟨"T"⟩,
          [("github",
            { command := "npx"
              args := ["-y", "@modelcontextprotocol/server-github"]
              env := [("GITHUB_PERSONAL_ACCESS_TOKEN", "")] })]) ∧
    ("" : String) ≠ "T" :=
  ⟨rfl, by decide⟩

/-- C1 (amended): with a non-empty token `T` the client constructor receives
    the structure containing `T`, while the GitHub tool-server's environment
    maps the access-token key to the value of the `GITHUB_TOKEN` environment
    variable at configuration time (empty when absent) — which is `T` exactly
    when that variable holds `T`, as it does when the token defaulted from the
    environment rather than being passed only as a flag value. -/
theorem C1_token_propagation (osEnv : String → Option String) (T : String) (hT : T ≠ "") :
    GithubStats.clientArg (some T) = some ⟨T⟩ ∧
    GithubStats.build_mcp_servers osEnv
      = [("github",
          { command := "npx"
            args := ["-y", "@modelcontextprotocol/server-github"]
            env := [("GITHUB_PERSONAL_ACCESS_TOKEN", (osEnv "GITHUB_TOKEN").getD "")] })] ∧
    (osEnv "GITHUB_TOKEN" = some T →
      GithubStats.build_mcp_servers osEnv
        = [("github",
            { command := "npx"
              args := ["-y", "@modelcontextprotocol/server-github"]
              env := [("GITHUB_PERSONAL_ACCESS_TOKEN", T)] })]) ∧
    (∀ p m v evs r, GithubStats.run_github_stats osEnv p m (some T) v evs = some r →
      r.clientConfig = some ⟨T⟩ ∧
      r.sessionConfig.mcp_servers = GithubStats.build_mcp_servers osEnv) := by
  refine ⟨by simp [GithubStats.clientArg, hT], rfl, fun h => by unfold GithubStats.build_mcp_servers; rw [h]; rfl, ?_⟩
  intro p m v evs r h
  unfold GithubStats.run_github_stats at h
  simp only [] at h
  split at h
  · simp only [Option.some.injEq] at h
    subst h
    exact ⟨by simp [GithubStats.clientArg, hT], rfl⟩
  · exact absurd h (by simp)

/-- C1 witness: the amended propagation at a concrete environment holding the
    token. -/
theorem C1_witness :
    GithubStats.clientArg (some "T") = some ⟨"T"⟩ ∧
    GithubStats.build_mcp_servers (fun _ => some "T")
      = [("github",
          { command := "npx"
            args := ["-y", "@modelcontextprotocol/server-github"]
            env := [("GITHUB_PERSONAL_ACCESS_TOKEN", "T")] })] := by
  have h := C1_token_propagation (fun _ => some "T") "T" (by decide)
  exact ⟨h.1, h.2.2.1 rfl⟩

/-- C2 counterexample: two `session.error` events leave two recorded entries
    in the error list, so "at most one captured error is recorded" fails as
    stated (the code appends every error's text; only the first is reported). -/
theorem C2_counterexample :
    ((processEvents true false initState
        [⟨.sessionError, { emptyData "s" with content := some "a" }⟩,
         ⟨.sessionError, { emptyData "s" with content := some "b" }⟩]).1).error_message
      = ["a", "b"] ∧
    ¬ (((processEvents true false initState
        [⟨.sessionError, { emptyData "s" with content := some "a" }⟩,
         ⟨.sessionError, { emptyData "s" with content := some "b" }⟩]).1).error_message.length ≤ 1) :=
  ⟨rfl, by decide⟩

/-- C2 (amended): every `session.error` event appends its text to the error
    list, so later errors are recorded too; but the first error's text is and
    stays the head of the list (the one the driver reports), the first error
    sets the done signal in the step that handles it, and no event ever
    unsets the done signal. -/
theorem C2_error_latch (v l : Bool) :
    (∀ st e, st.done = true → ((on_event v l st e).1).done = true) ∧
    (∀ st d, ((on_event v l st ⟨.sessionError, d⟩).1).done = true) ∧
    (∀ st e x, st.error_message.head? = some x →
      ((on_event v l st e).1).error_message.head? = some x) ∧
    (∀ evs, ((processEvents v l initState evs).1).error_message = errorTexts evs) ∧
    (∀ evs, ((processEvents v l initState evs).1).error_message.head? = (errorTexts evs).head?) := by
  refine ⟨on_event_done_mono v l, fun st d => on_event_error_sets_done v l st d, ?_, ?_, ?_⟩
  · intro st e x hx
    rw [on_event_error_message, List.head?_append, hx]
    rfl
  · intro evs
    rw [processEvents_error_message]
    rfl
  · intro evs
    rw [processEvents_error_message]
    rfl

/-- C2 witness: the latch properties at concrete states and events. -/
theorem C2_witness :
    ((on_event true false ⟨true, ["a"], []⟩ ⟨.sessionIdle, emptyData "s"⟩).1).done = true ∧
    ((on_event true false initState ⟨.sessionError, emptyData "boom"⟩).1).done = true ∧
    ((on_event true false ⟨true, ["a"], []⟩
        ⟨.sessionError, { emptyData "s" with content := some "b" }⟩).1).error_message.head?
      = some "a" := by
  obtain ⟨h1, h2, h3, -, -⟩ := C2_error_latch true false
  exact ⟨h1 ⟨true, ["a"], []⟩ _ rfl, h2 initState _, h3 ⟨true, ["a"], []⟩ _ "a" rfl⟩

/-- C4: the renderer is a total function of the event — in this embedding
    every branch yields a successor state and effect list for every payload —
    and at a payload whose optional fields are all absent each kind takes its
    empty/absent default: a missing delta appends the empty fragment, missing
    tool names label as `unknown`, missing arguments render the placeholder,
    a missing result renders the placeholder, missing progress and partial
    text render nothing, and a missing error content falls back to the
    payload's string form. -/
theorem C4_renderer_defaults (v l : Bool) (st : RenderState) (sf : String) :
    (on_event v l st ⟨.assistantMessageDelta, emptyData sf⟩
      = ({ st with message_buffer := st.message_buffer ++ [""] }, [])) ∧
    (on_event true l st ⟨.toolExecutionStart, emptyData sf⟩
      = (st, [.panel (some "[bold cyan]⚙  Calling tool:[/bold cyan] [yellow]unknown[/yellow]")
          "(no arguments)" "cyan"])) ∧
    (on_event true l st ⟨.toolExecutionComplete, emptyData sf⟩
      = (st, [.panel (some "[bold green]✓  Tool complete:[/bold green] [yellow]unknown[/yellow]")
          "(no output)" "green"])) ∧
    (on_event false true st ⟨.toolExecutionStart, emptyData sf⟩
      = (st, [.spinner "  Calling [yellow]unknown[/yellow]…"])) ∧
    (on_event false true st ⟨.toolExecutionComplete, emptyData sf⟩
      = (st, [.spinner "  [green]✓[/green] unknown"])) ∧
    (on_event v l st ⟨.toolExecutionProgress, emptyData sf⟩ = (st, [])) ∧
    (on_event v l st ⟨.toolExecutionPartResult, emptyData sf⟩ = (st, [])) ∧
    (on_event v l st ⟨.sessionError, emptyData sf⟩
      = ({ st with error_message := st.error_message ++ [sf], done := true },
         [.line ("[bold red]Session error:[/bold red] " ++ sf)])) := by
  refine ⟨rfl, rfl, rfl, rfl, rfl, ?_, ?_, rfl⟩
  · simp [on_event, pyOrStr, emptyData]
  · simp [on_event, pyOrStr, emptyData]

/-- C5: a run of `assistant.message_delta` events followed by one
    `assistant.message` event leaves the buffer holding exactly the fragments
    in arrival order and emitting nothing; the message event then clears the
    buffer and renders the concatenation of the fragments as markdown (with
    the blank-line framing, and stopping the live widget first in terse mode)
    whenever the concatenation has non-whitespace content, and renders
    nothing otherwise. -/
theorem C5_buffer_accumulation (v l : Bool) (frags : List String) (d : EventData) :
    (processEvents v l initState (frags.map deltaEv)).1.message_buffer = frags ∧
    (processEvents v l initState (frags.map deltaEv)).2 = [] ∧
    (on_event v l (processEvents v l initState (frags.map deltaEv)).1 ⟨.assistantMessage, d⟩).1.message_buffer
      = [] ∧
    (on_event v l (processEvents v l initState (frags.map deltaEv)).1 ⟨.assistantMessage, d⟩).2
      = (if (String.join frags).trim ≠ "" then
          (if !v && l then [Output.liveStop] else [])
            ++ [Output.blank, Output.markdown (String.join frags), Output.blank]
         else []) := by
  rw [processEvents_deltas]
  refine ⟨by simp [initState], by simp, ?_, ?_⟩
  · simp only [on_event]
    split <;> rfl
  · simp only [on_event, initState]
    by_cases h : (String.join frags).trim = "" <;> simp [h]

/-- C3: a session that delivers one `session.error` event with (non-empty)
    content `X` and nothing else makes either driver capture `X`, finish its
    wait (the done latch is set), destroy the session, stop the client, and
    report a failure carrying `X` with exit code 1; and any completed run of
    either driver has destroyed the session and stopped the client (the stop
    is the guaranteed-cleanup path taken on success and on failure alike). -/
theorem C3_session_error_path (osEnv : String → Option String) (p m X : String)
    (tok : Option String) (v : Bool) (d : EventData)
    (hc : d.content = some X) (hX : X ≠ "") :
    GithubStats.run_github_stats osEnv p m tok v [⟨.sessionError, d⟩]
      = some { clientConfig := GithubStats.clientArg tok
               sessionConfig := GithubStats.build_session_config osEnv m
               promptSent := p
               outputs := [.line ("[bold red]Session error:[/bold red] " ++ X),
                           .line ("\n[bold red]Error during GitHub stats analysis:[/bold red] " ++ X)]
               finalState := ⟨true, [X], []⟩
               sessionDestroyed := true
               clientStopped := true
               exitCode := some 1
               reportedError := some X } ∧
    Retrospective.run_retrospective osEnv p m tok [⟨.sessionError, d⟩]
      = some { clientConfig := Retrospective.clientArg tok
               sessionConfig := Retrospective.build_session_config osEnv m
               promptSent := p
               outputs := [.stderr ("\nError during retrospective: " ++ X)]
               finalState := ⟨true, [X]⟩
               sessionDestroyed := true
               clientStopped := true
               exitCode := some 1
               reportedError := some X } ∧
    (∀ evs r, GithubStats.run_github_stats osEnv p m tok v evs = some r →
      r.sessionDestroyed = true ∧ r.clientStopped = true) ∧
    (∀ evs r, Retrospective.run_retrospective osEnv p m tok evs = some r →
      r.sessionDestroyed = true ∧ r.clientStopped = true) := by
  have hr : pyOrStr d.content (pyOrStr d.message d.str_form) = X := by
    rw [hc]
    simp [pyOrStr, hX]
  refine ⟨?_, ?_, ?_, ?_⟩
  · simp [GithubStats.run_github_stats, processEvents, on_event, hr, initState]
  · simp [Retrospective.run_retrospective, Retrospective.processEvents, Retrospective.on_event, hc, initState]
  · intro evs r h
    unfold GithubStats.run_github_stats at h
    simp only [] at h
    split at h
    · simp only [Option.some.injEq] at h
      subst h
      exact ⟨rfl, rfl⟩
    · exact absurd h (by simp)
  · intro evs r h
    unfold Retrospective.run_retrospective at h
    simp only [] at h
    split at h
    · simp only [Option.some.injEq] at h
      subst h
      exact ⟨rfl, rfl⟩
    · exact absurd h (by simp)

/-- C3 witness: the error path at a concrete error event. -/
theorem C3_witness :
    (GithubStats.run_github_stats (fun _ => none) "p" "m" none false
        [⟨.sessionError, { emptyData "s" with content := some "X" }⟩]).map
        (fun r => (r.exitCode, r.reportedError, r.sessionDestroyed, r.clientStopped,
          r.finalState.done))
      = some (some 1, some "X", true, true, true) ∧
    (Retrospective.run_retrospective (fun _ => none) "p" "m" none
        [⟨.sessionError, { emptyData "s" with content := some "X" }⟩]).map
        (fun r => (r.exitCode, r.reportedError, r.sessionDestroyed, r.clientStopped,
          r.finalState.done))
      = some (some 1, some "X", true, true, true) := by
  have h := C3_session_error_path (fun _ => none) "p" "m" "X" none false
      { emptyData "s" with content := some "X" } rfl (by decide)
  constructor
  · rw [h.1]
    rfl
  · rw [h.2.1]
    rfl

/-! ### The JSON codec round-trip (for C8)

The chain below proves `loads (dumps v) = some v` for every modelled value:
digit lemmas, digit-run scanning, the integer literal, the string escapes,
leading-character facts, and finally the parser/serializer inversion by
induction on the parser's fuel.
-/

/-- A digit character carries its value and is a digit. -/
theorem digitChar_spec (k : Nat) (h : k < 10) :
    (digitChar k).toNat = 48 + k ∧ isDigitCh (digitChar k) = true := by
  interval_cases k <;> exact ⟨by decide, by decide⟩

/-- Every character the decimal renderer emits is a digit. -/
theorem natDigitsAux_digits (fuel : Nat) :
    ∀ (n : Nat), ∀ c ∈ natDigitsAux fuel n, isDigitCh c = true := by
  induction fuel with
  | zero => intro n c hc; simp [natDigitsAux] at hc
  | succ f ih =>
      intro n c hc
      rw [natDigitsAux] at hc
      by_cases h : n < 10
      · rw [if_pos h] at hc
        rw [List.mem_singleton] at hc
        exact hc ▸ (digitChar_spec n h).2
      · rw [if_neg h] at hc
        rcases List.mem_append.mp hc with hm | hm
        · exact ih (n / 10) c hm
        · rw [List.mem_singleton] at hm
          exact hm ▸ (digitChar_spec (n % 10) (Nat.mod_lt n (by omega))).2

/-- The decimal renderer emits at least one digit. -/
theorem natDigitsAux_ne_nil (fuel n : Nat) (h : 0 < fuel) : natDigitsAux fuel n ≠ [] := by
  cases fuel with
  | zero => omega
  | succ f =>
      rw [natDigitsAux]
      split <;> simp

/-- Reading back the decimal renderer's digits recovers the number, given
    enough fuel. -/
theorem natDigitsAux_val (fuel : Nat) :
    ∀ (n : Nat), n < fuel → digitsToNat (natDigitsAux fuel n) = n := by
  induction fuel with
  | zero => omega
  | succ f ih =>
      intro n hn
      rw [natDigitsAux]
      by_cases h : n < 10
      · rw [if_pos h]
        simp only [digitsToNat, List.foldl_cons, List.foldl_nil]
        rw [(digitChar_spec n h).1]
        omega
      · rw [if_neg h]
        have hstep : ∀ ds c, digitsToNat (ds ++ [c]) = digitsToNat ds * 10 + (c.toNat - 48) := by
          intro ds c
          simp [digitsToNat, List.foldl_append]
        rw [hstep, ih (n / 10) (by omega), (digitChar_spec (n % 10) (Nat.mod_lt n (by omega))).1]
        omega

/-- `natDigits` emits digits. -/
theorem natDigits_digits (n : Nat) : ∀ c ∈ natDigits n, isDigitCh c = true :=
  natDigitsAux_digits (n + 1) n

/-- `natDigits` is nonempty. -/
theorem natDigits_ne_nil (n : Nat) : natDigits n ≠ [] :=
  natDigitsAux_ne_nil (n + 1) n (by omega)

/-- `digitsToNat` inverts `natDigits`. -/
theorem digitsToNat_natDigits (n : Nat) : digitsToNat (natDigits n) = n :=
  natDigitsAux_val (n + 1) n (by omega)

/-- `natDigits` starts with a digit character. -/
theorem natDigits_head (n : Nat) :
    ∃ c t, natDigits n = c :: t ∧ isDigitCh c = true := by
  rcases hne : natDigits n with _ | ⟨c, t⟩
  · exact absurd hne (natDigits_ne_nil n)
  · exact ⟨c, t, rfl, natDigits_digits n c (hne ▸ List.mem_cons_self c t)⟩

/-- A digit character is none of the parser's structural characters. -/
theorem digit_not_special (c : Char) (h : isDigitCh c = true) :
    isWsCh c = false ∧ c ≠ ']' ∧ c ≠ '}' ∧ c ≠ ',' ∧ c ≠ ':' ∧ c ≠ '-' ∧
    c ≠ '"' ∧ c ≠ '[' ∧ c ≠ '{' ∧ c ≠ 'n' ∧ c ≠ 'f' ∧ c ≠ 't' := by
  refine ⟨?_, ?_, ?_, ?_, ?_, ?_, ?_, ?_, ?_, ?_, ?_, ?_⟩
  · by_cases h1 : c = ' '
    · subst h1; exact absurd h (by decide)
    · by_cases h2 : c = '\n'
      · subst h2; exact absurd h (by decide)
      · by_cases h3 : c = '\t'
        · subst h3; exact absurd h (by decide)
        · by_cases h4 : c = '\r'
          · subst h4; exact absurd h (by decide)
          · simp [isWsCh, h1, h2, h3, h4]
  all_goals intro heq
  all_goals subst heq
  all_goals exact absurd h (by decide)

/-- The input is unscanned when its head is not a digit. -/
theorem scanDigits_cons_not (c : Char) (t : List Char) (h : isDigitCh c = false) :
    scanDigits (c :: t) = ([], c :: t) := by
  simp [scanDigits, h]

/-- A remainder that cannot extend a digit run: empty or headed by a
    non-digit. Every character following a rendered number in serializer
    output qualifies. -/
def noDigHead : List Char → Bool
  | [] => true
  | c :: _ => !isDigitCh c

/-- `scanDigits` leaves a digit-free remainder alone. -/
theorem scanDigits_noDig (cs : List Char) (h : noDigHead cs = true) :
    scanDigits cs = ([], cs) := by
  cases cs with
  | nil => rfl
  | cons c t =>
      apply scanDigits_cons_not
      simpa [noDigHead] using h

/-- `scanDigits` consumes exactly a leading digit run. -/
theorem scanDigits_run (ds : List Char) (hds : ∀ c ∈ ds, isDigitCh c = true)
    (rest : List Char) (hrest : scanDigits rest = ([], rest)) :
    scanDigits (ds ++ rest) = (ds, rest) := by
  induction ds with
  | nil =>
      rw [List.nil_append]
      exact hrest
  | cons d tl ih =>
      have hd : isDigitCh d = true := hds d (List.mem_cons_self d tl)
      have htl := ih fun x hx => hds x (List.mem_cons_of_mem d hx)
      simp [scanDigits, hd, htl]

/-- The number codec round-trip: `parseNum` inverts `intChars` whenever the
    remainder cannot extend the digit run. -/
theorem parseNum_intChars (i : Int) (rest : List Char) (hr : noDigHead rest = true) :
    parseNum (intChars i ++ rest) = some (i, rest) := by
  by_cases hneg : i < 0
  · have harg : intChars i ++ rest = '-' :: (natDigits i.natAbs ++ rest) := by
      simp [intChars, hneg]
    rw [harg]
    simp only [parseNum]
    rw [scanDigits_run _ (natDigits_digits _) _ (scanDigits_noDig rest hr)]
    rw [if_neg (by simp [natDigits_ne_nil])]
    rw [digitsToNat_natDigits]
    simp only [Option.some.injEq, Prod.mk.injEq, and_true]
    omega
  · obtain ⟨c, t, hct, hc⟩ := natDigits_head i.natAbs
    have hminus : c ≠ '-' := (digit_not_special c hc).2.2.2.2.2.1
    have harg : intChars i ++ rest = c :: (t ++ rest) := by
      simp [intChars, hneg, hct]
    rw [harg]
    have hscan : scanDigits (c :: (t ++ rest)) = (c :: t, rest) := by
      have := scanDigits_run (c :: t) (fun x hx => natDigits_digits i.natAbs x (hct ▸ hx))
        rest (scanDigits_noDig rest hr)
      simpa using this
    have hval : digitsToNat (c :: t) = i.natAbs := by
      have := digitsToNat_natDigits i.natAbs
      rwa [hct] at this
    simp only [parseNum]
    split
    · rename_i r heq
      rw [List.cons.injEq] at heq
      exact absurd heq.1 hminus
    · rw [hscan]
      simp only [List.isEmpty_cons, Bool.false_eq_true, if_neg, if_false]
      rw [hval]
      simp only [Option.some.injEq, Prod.mk.injEq, and_true]
      omega

/-- A hexadecimal digit character carries its value. -/
theorem hexVal_hexDigit (k : Nat) (h : k < 16) : hexVal (hexDigit k) = some k := by
  interval_cases k <;> decide

/-- Parsing one escaped character undoes the escaping. -/
theorem parseStrBody_escape (c : Char) (acc rest : List Char) :
    parseStrBody acc (escapeChar c ++ rest) = parseStrBody (c :: acc) rest := by
  by_cases h1 : c = '"'
  · subst h1; rfl
  by_cases h2 : c = '\\'
  · subst h2; rfl
  by_cases h3 : c = '\n'
  · subst h3; rfl
  by_cases h4 : c = '\t'
  · subst h4; rfl
  by_cases h5 : c = '\r'
  · subst h5; rfl
  by_cases h6 : c.toNat = 8
  · have hc : c = Char.ofNat 8 := by rw [← h6, Char.ofNat_toNat]
    subst hc; rfl
  by_cases h7 : c.toNat = 12
  · have hc : c = Char.ofNat 12 := by rw [← h7, Char.ofNat_toNat]
    subst hc; rfl
  by_cases hlt : c.toNat < 32
  · have hesc : escapeChar c
        = ['\\', 'u', '0', '0', hexDigit (c.toNat / 16), hexDigit (c.toNat % 16)] := by
      simp [escapeChar, h1, h2, h3, h4, h5, h6, h7, hlt]
    rw [hesc]
    show (match parseHex4 '0' '0' (hexDigit (c.toNat / 16)) (hexDigit (c.toNat % 16)) with
        | some n => parseStrBody (Char.ofNat n :: acc) rest
        | none => none)
      = parseStrBody (c :: acc) rest
    have hhex : parseHex4 '0' '0' (hexDigit (c.toNat / 16)) (hexDigit (c.toNat % 16))
        = some c.toNat := by
      have hhi : c.toNat / 16 < 16 := by omega
      have hlo : c.toNat % 16 < 16 := Nat.mod_lt _ (by omega)
      simp only [parseHex4, hexVal_hexDigit _ hhi, hexVal_hexDigit _ hlo]
      show some ((((48 - 48) * 16 + (48 - 48)) * 16 + c.toNat / 16) * 16 + c.toNat % 16)
          = some c.toNat
      congr 1
      omega
    rw [hhex]
    show parseStrBody (Char.ofNat c.toNat :: acc) rest = parseStrBody (c :: acc) rest
    rw [Char.ofNat_toNat]
  · have hesc : escapeChar c = [c] := by
      simp [escapeChar, h1, h2, h3, h4, h5, h6, h7, hlt]
    rw [hesc]
    show parseStrBody acc (c :: rest) = parseStrBody (c :: acc) rest
    rw [parseStrBody.eq_def]
    split <;> simp_all

/-- Parsing an escaped character run stops exactly at the closing quote. -/
theorem parseStrBody_flat (cs : List Char) : ∀ (acc rest : List Char),
    parseStrBody acc (cs.flatMap escapeChar ++ '"' :: rest)
      = some (⟨acc.reverse ++ cs⟩, rest) := by
  induction cs with
  | nil =>
      intro acc rest
      simp [parseStrBody]
  | cons c cs ih =>
      intro acc rest
      rw [List.flatMap_cons, List.append_assoc, parseStrBody_escape, ih]
      simp

/-- The string codec round-trip: parsing a rendered string body recovers the
    string. -/
theorem parseStr_renderStr (s : String) (rest : List Char) :
    parseStr (s.data.flatMap escapeChar ++ '"' :: rest) = some (s, rest) := by
  rw [parseStr, parseStrBody_flat]
  rfl

/-- A non-whitespace head stops `skipWs`. -/
theorem skipWs_cons_not (c : Char) (t : List Char) (h : isWsCh c = false) :
    skipWs (c :: t) = c :: t := by
  simp [skipWs, h]

/-- `skipWs` passes over an indentation run. -/
theorem skipWs_replicate (n : Nat) (x : List Char) :
    skipWs (List.replicate n ' ' ++ x) = skipWs x := by
  induction n with
  | zero => simp
  | succ k ih => simpa [List.replicate_succ, skipWs, isWsCh] using ih

/-- `skipWs` passes over a newline-plus-indentation separator. -/
theorem skipWs_nlPad (ind : Nat) (x : List Char) :
    skipWs (nlPad ind ++ x) = skipWs x := by
  have h : skipWs (nlPad ind ++ x) = skipWs (List.replicate (2 * ind) ' ' ++ x) := by
    simp [nlPad, skipWs, isWsCh]
  rw [h, skipWs_replicate]

/-- Every serialized value begins with a non-whitespace character that closes
    neither an array nor an object. -/
theorem dumpsL_head (v : Json) (ind : Nat) :
    ∃ c t, dumpsL v ind = c :: t ∧ isWsCh c = false ∧ c ≠ ']' ∧ c ≠ '}' := by
  cases v with
  | null => exact ⟨'n', _, rfl, by decide⟩
  | bool b =>
      cases b with
      | false => exact ⟨'f', _, rfl, by decide⟩
      | true => exact ⟨'t', _, rfl, by decide⟩
  | num i =>
      by_cases hneg : i < 0
      · refine ⟨'-', natDigits i.natAbs, ?_, by decide⟩
        simp [dumpsL, intChars, hneg]
      · obtain ⟨c, t, hct, hc⟩ := natDigits_head i.natAbs
        obtain ⟨hws, hrb, hcb, -⟩ := digit_not_special c hc
        refine ⟨c, t, ?_, hws, hrb, hcb⟩
        simp [dumpsL, intChars, hneg, hct]
  | str s => exact ⟨'"', _, rfl, by decide⟩
  | arr es =>
      cases es with
      | nil => exact ⟨'[', _, rfl, by decide⟩
      | cons e es => exact ⟨'[', _, rfl, by decide⟩
  | obj ms =>
      cases ms with
      | nil => exact ⟨'{', _, rfl, by decide⟩
      | cons m ms =>
          rcases m with ⟨k, v⟩
          exact ⟨'{', _, rfl, by decide⟩

/-- `skipWs` is the identity on serialized output followed by anything. -/
theorem skipWs_dumpsL (v : Json) (ind : Nat) (x : List Char) :
    skipWs (dumpsL v ind ++ x) = dumpsL v ind ++ x := by
  obtain ⟨c, t, hct, hws, -, -⟩ := dumpsL_head v ind
  rw [hct, List.cons_append, skipWs_cons_not _ _ hws]

/-- One-step unfolding of `parseVal` at successor fuel (definitional). -/
theorem parseVal_step (fuel : Nat) (cs : List Char) :
    parseVal (fuel + 1) cs
      = (match skipWs cs with
         | 'n' :: 'u' :: 'l' :: 'l' :: r => some (.null, r)
         | 't' :: 'r' :: 'u' :: 'e' :: r => some (.bool true, r)
         | 'f' :: 'a' :: 'l' :: 's' :: 'e' :: r => some (.bool false, r)
         | '"' :: r =>
             match parseStr r with
             | some (s, r1) => some (.str s, r1)
             | none => none
         | '[' :: r =>
             match skipWs r with
             | [] => none
             | c :: r1 =>
                 if c = ']' then some (.arr [], r1)
                 else
                   match parseElems fuel (c :: r1) with
                   | some (es, r2) => some (.arr es, r2)
                   | none => none
         | '{' :: r =>
             match skipWs r with
             | [] => none
             | c :: r1 =>
                 if c = '}' then some (.obj [], r1)
                 else
                   match parseMembers fuel (c :: r1) with
                   | some (ms, r2) => some (.obj ms, r2)
                   | none => none
         | c :: r =>
             if c = '-' || isDigitCh c then
               match parseNum (c :: r) with
               | some (i, r1) => some (.num i, r1)
               | none => none
             else none
         | [] => none) := rfl

/-- One-step unfolding of `parseElems` at successor fuel (definitional). -/
theorem parseElems_step (fuel : Nat) (cs : List Char) :
    parseElems (fuel + 1) cs
      = (match parseVal fuel cs with
         | none => none
         | some (v, r) =>
             match skipWs r with
             | ',' :: r1 =>
                 match parseElems fuel (skipWs r1) with
                 | some (vs, r2) => some (v :: vs, r2)
                 | none => none
             | ']' :: r1 => some ([v], r1)
             | _ => none) := rfl

/-- One-step unfolding of `parseMembers` at successor fuel (definitional). -/
theorem parseMembers_step (fuel : Nat) (cs : List Char) :
    parseMembers (fuel + 1) cs
      = (match skipWs cs with
         | '"' :: r =>
             match parseStr r with
             | none => none
             | some (k, r1) =>
                 match skipWs r1 with
                 | ':' :: r2 =>
                     match parseVal fuel (skipWs r2) with
                     | none => none
                     | some (v, r3) =>
                         match skipWs r3 with
                         | ',' :: r4 =>
                             match parseMembers fuel (skipWs r4) with
                             | some (ms, r5) => some ((k, v) :: ms, r5)
                             | none => none
                         | '}' :: r4 => some ([(k, v)], r4)
                         | _ => none
                 | _ => none
         | _ => none) := rfl

/-- A value whose input starts with a digit parses through `parseNum`. -/
theorem parseVal_digit_head (fuel : Nat) (c : Char) (t : List Char)
    (h : isDigitCh c = true) :
    parseVal (fuel + 1) (c :: t)
      = (match parseNum (c :: t) with
         | some (i, r1) => some (.num i, r1)
         | none => none) := by
  obtain ⟨hws, -, -, -, -, -, hq, hlb, hob, hn, hf', ht'⟩ := digit_not_special c h
  rw [parseVal_step, skipWs_cons_not _ _ hws]
  split <;> simp_all

/-- Length of the indentation separator. -/
theorem nlPad_length (ind : Nat) : (nlPad ind).length = 1 + 2 * ind := by
  simp [nlPad]
  omega

/-- `skipWs` is the identity on a rendered string literal followed by
    anything. -/
theorem skipWs_renderStr (k : String) (x : List Char) :
    skipWs (renderStr k ++ x) = renderStr k ++ x := by
  rw [renderStr, List.cons_append, skipWs_cons_not _ _ (by decide)]

/-- The parser's array branch on a serialized nonempty array defers to
    `parseElems` (the element list never begins with `]`). -/
theorem parseVal_arr_cons (f ind : Nat) (e : Json) (es : List Json) (rest : List Char) :
    parseVal (f + 1)
        ('[' :: (nlPad (ind + 1) ++ (dumpsL e (ind + 1)
          ++ (dumpsElems es (ind + 1) ++ (nlPad ind ++ (']' :: rest))))))
      = (match parseElems f (dumpsL e (ind + 1)
            ++ (dumpsElems es (ind + 1) ++ (nlPad ind ++ (']' :: rest)))) with
         | some (vs, r2) => some (.arr vs, r2)
         | none => none) := by
  obtain ⟨c, t, hct, hws, hrb, -⟩ := dumpsL_head e (ind + 1)
  rw [parseVal_step, skipWs_cons_not '[' _ (by decide)]
  show (match skipWs (nlPad (ind + 1) ++ (dumpsL e (ind + 1)
        ++ (dumpsElems es (ind + 1) ++ (nlPad ind ++ (']' :: rest))))) with
      | [] => none
      | c1 :: r1 =>
          if c1 = ']' then some (Json.arr [], r1)
          else
            match parseElems f (c1 :: r1) with
            | some (es1, r2) => some (Json.arr es1, r2)
            | none => none) = _
  rw [skipWs_nlPad, skipWs_dumpsL, hct, List.cons_append]
  dsimp only
  rw [if_neg hrb, ← List.cons_append, ← hct]

/-- The parser's object branch on a serialized nonempty object defers to
    `parseMembers` (the member list begins with a key's quote, never `}`). -/
theorem parseVal_obj_cons (f ind : Nat) (k : String) (w : Json)
    (ms : List (String × Json)) (rest : List Char) :
    parseVal (f + 1)
        ('{' :: (nlPad (ind + 1) ++ (renderStr k ++ (':' :: ' ' :: dumpsL w (ind + 1)
          ++ (dumpsMembers ms (ind + 1) ++ (nlPad ind ++ ('}' :: rest)))))))
      = (match parseMembers f (renderStr k ++ (':' :: ' ' :: dumpsL w (ind + 1)
            ++ (dumpsMembers ms (ind + 1) ++ (nlPad ind ++ ('}' :: rest))))) with
         | some (ms1, r2) => some (.obj ms1, r2)
         | none => none) := by
  rw [parseVal_step, skipWs_cons_not '{' _ (by decide)]
  show (match skipWs (nlPad (ind + 1) ++ (renderStr k ++ (':' :: ' ' :: dumpsL w (ind + 1)
        ++ (dumpsMembers ms (ind + 1) ++ (nlPad ind ++ ('}' :: rest)))))) with
      | [] => none
      | c1 :: r1 =>
          if c1 = '}' then some (Json.obj [], r1)
          else
            match parseMembers f (c1 :: r1) with
            | some (ms1, r2) => some (Json.obj ms1, r2)
            | none => none) = _
  rw [skipWs_nlPad, skipWs_renderStr, renderStr, List.cons_append]
  dsimp only
  rw [if_neg (by decide : ¬('"' = '}')), ← List.cons_append, ← renderStr]

/-- One-step unfolding of `parseMembers` on an input that starts with the
    opening quote of a key (definitional). -/
theorem parseMembers_step_quote (fuel : Nat) (r : List Char) :
    parseMembers (fuel + 1) ('"' :: r)
      = (match parseStr r with
         | none => none
         | some (k, r1) =>
             match skipWs r1 with
             | ':' :: r2 =>
                 match parseVal fuel (skipWs r2) with
                 | none => none
                 | some (v, r3) =>
                     match skipWs r3 with
                     | ',' :: r4 =>
                         match parseMembers fuel (skipWs r4) with
                         | some (ms, r5) => some ((k, v) :: ms, r5)
                         | none => none
                     | '}' :: r4 => some ([(k, v)], r4)
                     | _ => none
             | _ => none) := rfl

/-- The parser inverts the serializer, by induction on fuel: with enough fuel,
    parsing a serialized value recovers it and stops exactly at the supplied
    remainder; likewise for serialized element runs and member runs up to
    their closing bracket. -/
theorem parse_dumps_fuel (fuel : Nat) :
    (∀ (v : Json) (ind : Nat) (rest : List Char),
      (dumpsL v ind).length < fuel → noDigHead rest = true →
      parseVal fuel (dumpsL v ind ++ rest) = some (v, rest)) ∧
    (∀ (e : Json) (es : List Json) (ind : Nat) (rest : List Char),
      (dumpsL e (ind + 1)).length + (dumpsElems es (ind + 1)).length + 2 < fuel →
      parseElems fuel
          (dumpsL e (ind + 1) ++ (dumpsElems es (ind + 1) ++ (nlPad ind ++ (']' :: rest))))
        = some (e :: es, rest)) ∧
    (∀ (k : String) (w : Json) (ms : List (String × Json)) (ind : Nat) (rest : List Char),
      (renderStr k).length + (dumpsL w (ind + 1)).length
          + (dumpsMembers ms (ind + 1)).length + 4 < fuel →
      parseMembers fuel
          (renderStr k ++ (':' :: ' ' :: dumpsL w (ind + 1)
            ++ (dumpsMembers ms (ind + 1) ++ (nlPad ind ++ ('}' :: rest)))))
        = some ((k, w) :: ms, rest)) := by
  induction fuel with
  | zero =>
      refine ⟨?_, ?_, ?_⟩
      · intro v ind rest hf hr
        omega
      · intro e es ind rest hb
        omega
      · intro k w ms ind rest hb
        omega
  | succ f ih =>
      obtain ⟨ihv, ihe, ihm⟩ := ih
      refine ⟨?_, ?_, ?_⟩
      · intro v ind rest hf hr
        cases v with
        | null => rfl
        | bool b => cases b <;> rfl
        | num i =>
            have hd : dumpsL (.num i) ind = intChars i := rfl
            rw [hd]
            by_cases hneg : i < 0
            · have hcons : intChars i ++ rest = '-' :: (natDigits i.natAbs ++ rest) := by
                simp [intChars, hneg]
              rw [hcons]
              have hred : parseVal (f + 1) ('-' :: (natDigits i.natAbs ++ rest))
                  = (match parseNum ('-' :: (natDigits i.natAbs ++ rest)) with
                     | some (j, r1) => some (Json.num j, r1)
                     | none => none) := rfl
              rw [hred, ← hcons, parseNum_intChars i rest hr]
            · obtain ⟨c, t, hct, hc⟩ := natDigits_head i.natAbs
              have hcons : intChars i ++ rest = c :: (t ++ rest) := by
                simp [intChars, hneg, hct]
              rw [hcons, parseVal_digit_head f c (t ++ rest) hc, ← hcons,
                parseNum_intChars i rest hr]
        | str s =>
            have harg : dumpsL (.str s) ind ++ rest
                = '"' :: (s.data.flatMap escapeChar ++ ('"' :: rest)) := by
              simp [dumpsL, renderStr]
            rw [harg]
            have hred : parseVal (f + 1) ('"' :: (s.data.flatMap escapeChar ++ ('"' :: rest)))
                = (match parseStr (s.data.flatMap escapeChar ++ ('"' :: rest)) with
                   | some (s1, r1) => some (Json.str s1, r1)
                   | none => none) := rfl
            rw [hred, parseStr_renderStr]
        | arr es =>
            cases es with
            | nil => rfl
            | cons e es =>
                have harg : dumpsL (.arr (e :: es)) ind ++ rest
                    = '[' :: (nlPad (ind + 1) ++ (dumpsL e (ind + 1)
                      ++ (dumpsElems es (ind + 1) ++ (nlPad ind ++ (']' :: rest))))) := by
                  simp [dumpsL, List.append_assoc]
                rw [harg, parseVal_arr_cons]
                have hb : (dumpsL e (ind + 1)).length + (dumpsElems es (ind + 1)).length + 2 < f := by
                  simp only [dumpsL, List.length_cons, List.length_append, nlPad_length] at hf
                  omega
                rw [ihe e es ind rest hb]
        | obj ms =>
            cases ms with
            | nil => rfl
            | cons m ms =>
                rcases m with ⟨k, w⟩
                have harg : dumpsL (.obj ((k, w) :: ms)) ind ++ rest
                    = '{' :: (nlPad (ind + 1) ++ (renderStr k ++ (':' :: ' ' :: dumpsL w (ind + 1)
                      ++ (dumpsMembers ms (ind + 1) ++ (nlPad ind ++ ('}' :: rest)))))) := by
                  simp [dumpsL, renderStr, List.append_assoc]
                rw [harg, parseVal_obj_cons]
                have hb : (renderStr k).length + (dumpsL w (ind + 1)).length
                    + (dumpsMembers ms (ind + 1)).length + 4 < f := by
                  simp only [dumpsL, renderStr, List.length_cons, List.length_append,
                    nlPad_length] at hf ⊢
                  omega
                rw [ihm k w ms ind rest hb]
      · intro e es ind rest hb
        have hX : noDigHead (dumpsElems es (ind + 1) ++ (nlPad ind ++ (']' :: rest))) = true := by
          cases es with
          | nil => simp [dumpsElems, nlPad, noDigHead, isDigitCh]
          | cons e2 es2 => simp [dumpsElems, noDigHead, isDigitCh]
        have hA : (dumpsL e (ind + 1)).length < f := by omega
        rw [parseElems_step, ihv e (ind + 1) _ hA hX]
        dsimp only
        cases es with
        | nil =>
            have hskip : skipWs (dumpsElems [] (ind + 1) ++ (nlPad ind ++ (']' :: rest)))
                = ']' :: rest := by
              simp only [dumpsElems, List.nil_append]
              rw [skipWs_nlPad, skipWs_cons_not _ _ (by decide)]
            rw [hskip]
            rfl
        | cons e2 es2 =>
            have hXeq : dumpsElems (e2 :: es2) (ind + 1) ++ (nlPad ind ++ (']' :: rest))
                = ',' :: (nlPad (ind + 1) ++ (dumpsL e2 (ind + 1) ++ (dumpsElems es2 (ind + 1)
                    ++ (nlPad ind ++ (']' :: rest))))) := by
              simp [dumpsElems, List.append_assoc]
            rw [hXeq, skipWs_cons_not ',' _ (by decide)]
            show (match parseElems f (skipWs (nlPad (ind + 1) ++ (dumpsL e2 (ind + 1)
                  ++ (dumpsElems es2 (ind + 1) ++ (nlPad ind ++ (']' :: rest)))))) with
                | some (vs, r2) => some (e :: vs, r2)
                | none => none) = _
            rw [skipWs_nlPad, skipWs_dumpsL]
            have hb2 : (dumpsL e2 (ind + 1)).length + (dumpsElems es2 (ind + 1)).length + 2 < f := by
              simp only [dumpsElems, List.length_cons, List.length_append, nlPad_length] at hb
              omega
            rw [ihe e2 es2 ind rest hb2]
      · intro k w ms ind rest hb
        rw [show renderStr k ++ (':' :: ' ' :: dumpsL w (ind + 1)
              ++ (dumpsMembers ms (ind + 1) ++ (nlPad ind ++ ('}' :: rest))))
            = '"' :: (k.data.flatMap escapeChar ++ ('"' :: (':' :: ' ' :: dumpsL w (ind + 1)
              ++ (dumpsMembers ms (ind + 1) ++ (nlPad ind ++ ('}' :: rest)))))) from by
          simp [renderStr, List.append_assoc]]
        rw [parseMembers_step_quote, parseStr_renderStr]
        dsimp only
        show (match parseVal f (skipWs (' ' :: (dumpsL w (ind + 1)
              ++ (dumpsMembers ms (ind + 1) ++ (nlPad ind ++ ('}' :: rest)))))) with
            | none => none
            | some (v, r3) =>
                match skipWs r3 with
                | ',' :: r4 =>
                    match parseMembers f (skipWs r4) with
                    | some (ms1, r5) => some ((k, v) :: ms1, r5)
                    | none => none
                | '}' :: r4 => some ([(k, v)], r4)
                | _ => none) = _
        have hsp : skipWs (' ' :: (dumpsL w (ind + 1)
            ++ (dumpsMembers ms (ind + 1) ++ (nlPad ind ++ ('}' :: rest)))))
            = dumpsL w (ind + 1) ++ (dumpsMembers ms (ind + 1) ++ (nlPad ind ++ ('}' :: rest))) := by
          have h1 : skipWs (' ' :: (dumpsL w (ind + 1)
              ++ (dumpsMembers ms (ind + 1) ++ (nlPad ind ++ ('}' :: rest)))))
              = skipWs (dumpsL w (ind + 1)
                  ++ (dumpsMembers ms (ind + 1) ++ (nlPad ind ++ ('}' :: rest)))) := rfl
          rw [h1, skipWs_dumpsL]
        rw [hsp]
        have hX2 : noDigHead (dumpsMembers ms (ind + 1) ++ (nlPad ind ++ ('}' :: rest))) = true := by
          cases ms with
          | nil => simp [dumpsMembers, nlPad, noDigHead, isDigitCh]
          | cons m2 ms2 =>
              rcases m2 with ⟨k2, w2⟩
              simp [dumpsMembers, noDigHead, isDigitCh]
        have hV : (dumpsL w (ind + 1)).length < f := by omega
        rw [ihv w (ind + 1) _ hV hX2]
        dsimp only
        cases ms with
        | nil =>
            have hskip : skipWs (dumpsMembers [] (ind + 1) ++ (nlPad ind ++ ('}' :: rest)))
                = '}' :: rest := by
              simp only [dumpsMembers, List.nil_append]
              rw [skipWs_nlPad, skipWs_cons_not _ _ (by decide)]
            rw [hskip]
            rfl
        | cons m2 ms2 =>
            rcases m2 with ⟨k2, w2⟩
            have hXeq : dumpsMembers ((k2, w2) :: ms2) (ind + 1) ++ (nlPad ind ++ ('}' :: rest))
                = ',' :: (nlPad (ind + 1) ++ (renderStr k2 ++ (':' :: ' ' :: dumpsL w2 (ind + 1)
                    ++ (dumpsMembers ms2 (ind + 1) ++ (nlPad ind ++ ('}' :: rest)))))) := by
              simp [dumpsMembers, List.append_assoc]
            rw [hXeq, skipWs_cons_not ',' _ (by decide)]
            show (match parseMembers f (skipWs (nlPad (ind + 1) ++ (renderStr k2
                  ++ (':' :: ' ' :: dumpsL w2 (ind + 1) ++ (dumpsMembers ms2 (ind + 1)
                    ++ (nlPad ind ++ ('}' :: rest))))))) with
                | some (ms1, r5) => some ((k, w) :: ms1, r5)
                | none => none) = _
            rw [skipWs_nlPad, skipWs_renderStr]
            have hb2 : (renderStr k2).length + (dumpsL w2 (ind + 1)).length
                + (dumpsMembers ms2 (ind + 1)).length + 4 < f := by
              simp only [dumpsMembers, renderStr, List.length_cons, List.length_append,
                nlPad_length] at hb ⊢
              omega
            rw [ihm k2 w2 ms2 ind rest hb2]

/-- The codec round-trip: parsing a serialized value recovers it exactly. -/
theorem loads_dumps (v : Json) : loads (dumps v) = some v := by
  have hrt := (parse_dumps_fuel ((dumpsL v 0).length + 1)).1 v 0 [] (by omega) rfl
  rw [List.append_nil] at hrt
  have h1 : loads (dumps v)
      = (match parseVal ((dumpsL v 0).length + 1) (dumpsL v 0) with
         | some (v1, r) => if (skipWs r).isEmpty then some v1 else none
         | none => none) := rfl
  rw [h1, hrt]
  rfl

/-- C8: `_format_tool_arguments` maps `None` to the empty string; a string
    that parses as JSON is re-serialized with indentation and parsing the
    output reproduces the original parsed value; a string that does not parse
    as JSON is returned verbatim; a mapping is serialized with indentation
    and parsing the output reproduces the original mapping; any other value
    maps to its default string form. -/
theorem C8_format_tool_arguments :
    format_tool_arguments .none = "" ∧
    (∀ s : String, loads s = none → format_tool_arguments (.str s) = s) ∧
    (∀ (s : String) (v : Json), loads s = some v →
      format_tool_arguments (.str s) = dumps v ∧
      loads (format_tool_arguments (.str s)) = some v) ∧
    (∀ m : List (String × Json),
      format_tool_arguments (.dict m) = dumps (Json.obj m) ∧
      loads (format_tool_arguments (.dict m)) = some (Json.obj m)) ∧
    (∀ r : String, format_tool_arguments (.other r) = r) := by
  refine ⟨rfl, ?_, ?_, ?_, fun r => rfl⟩
  · intro s h
    simp [format_tool_arguments, h]
  · intro s v h
    have hfmt : format_tool_arguments (.str s) = dumps v := by
      simp [format_tool_arguments, h]
    exact ⟨hfmt, by rw [hfmt]; exact loads_dumps v⟩
  · intro m
    exact ⟨rfl, by
      show loads (dumps (Json.obj m)) = some (Json.obj m)
      exact loads_dumps (Json.obj m)⟩

/-- C8 witness: the formatting dispatch and round-trips at concrete inputs
    (a non-JSON string, a JSON-encoded array, and a mapping). -/
theorem C8_witness :
    format_tool_arguments (.str "hello") = "hello" ∧
    format_tool_arguments (.str "[1, 2]") = "[\n  1,\n  2\n]" ∧
    loads (format_tool_arguments (.str "[1, 2]")) = some (.arr [.num 1, .num 2]) ∧
    format_tool_arguments (.dict [("owner", .str "org")])
      = "\x7b\n  \"owner\": \"org\"\n\x7d" ∧
    loads (format_tool_arguments (.dict [("owner", .str "org")]))
      = some (.obj [("owner", .str "org")]) := by
  obtain ⟨-, h2, h3, h4, -⟩ := C8_format_tool_arguments
  have ha := h3 "[1, 2]" (.arr [.num 1, .num 2]) rfl
  have hb := h4 [("owner", .str "org")]
  refine ⟨h2 "hello" rfl, ?_, ha.2, ?_, hb.2⟩
  · rw [ha.1]
    rfl
  · rw [hb.1]
    rfl


end HveForge
